import Mathlib

/-!
Shallow embedding of the connection-management layer of GSM_AT_Lib
(`src/gsm/gsm_conn.c`) and verification of its specification claims.

The embedding models one connection (`Conn`), the environment oracles for
memory allocation and producer-queue submission (`World`), and each C
function as a Lean function that also produces an explicit event trace
(`Ev`): Core-Lock protect/unprotect, validation-id reads, allocations,
frees, producer-queue submissions, poll events and timer re-arming.
Machine integers (`size_t`, `uint8_t`) are modelled as `Nat`; the byte
contents of buffers are `List Nat`.  Pointer-validity checks
(`conn != NULL && gsmi_is_valid_conn_ptr(conn)`) are modelled by an
explicit `valid : Bool` argument.  `GSM_MSG_VAR_ALLOC` failure returns
`gsmPARERR`/`gsmERRMEM` exactly as the C macros do.
-/

/-- Result codes of the library (`gsmr_t`), restricted to the members this
module can produce. -/
inductive Gsmr where
  | gsmOK
  | gsmERR
  | gsmPARERR
  | gsmERRMEM
  | gsmTIMEOUT
deriving DecidableEq, Repr

/-- Command identifiers (`gsm_cmd_t`) used by this module. -/
inductive CmdDef where
  | CIPSTATUS
  | CIPSTART
  | CIPSEND
  | CIPCLOSE
deriving DecidableEq, Repr

/-- Command envelope (`gsm_msg_t`) fields relevant to the claims: command
type, captured validation id, payload bytes, free-after-use flag and
blocking flag.  (UDP remote ip/port and the `bw` output pointer carried by
`conn_send` envelopes are omitted: no claim mentions them.) -/
structure Msg where
  cmd_def : CmdDef
  val_id : Option Nat
  data : List Nat
  fau : Bool
  blocking : Bool
deriving DecidableEq, Repr

/-- Observable events of the embedding. -/
inductive Ev where
  /-- `GSM_CORE_PROTECT()` -/
  | protect
  /-- `GSM_CORE_UNPROTECT()` -/
  | unprotect
  /-- read of `conn->val_id` (inside `conn_get_val_id`) -/
  | readValId (v : Nat)
  /-- `GSM_MSG_VAR_ALLOC` (command-envelope allocation), with outcome -/
  | allocMsg (ok : Bool)
  /-- `gsm_mem_alloc` of a write buffer, with outcome -/
  | allocBuff (ok : Bool)
  /-- `gsm_mem_free` of a write buffer -/
  | freeBuff
  /-- `gsmi_send_msg_to_producer_mbox` of envelope `m`, returning `r` -/
  | submit (m : Msg) (r : Gsmr)
  /-- `gsmi_send_conn_cb` of a `GSM_EVT_CONN_POLL` event -/
  | pollEvt
  /-- `gsm_timeout_add` re-arming the poll timer -/
  | timeoutAdd
deriving DecidableEq, Repr

/-- A connection's write buffer (`conn->buff`): capacity `cap` is
`buff.len`, and `staged` holds the `buff.ptr` bytes written so far. -/
structure ConnBuff where
  cap : Nat
  staged : List Nat
deriving DecidableEq, Repr

/-- Connection state (`gsm_conn_t`) fields used by this module.  The
buffer is `none` exactly when `conn->buff.buff == NULL`. -/
structure Conn where
  num : Nat
  val_id : Nat
  active : Bool
  in_closing : Bool
  client : Bool
  buff : Option ConnBuff
  total_recved : Nat
deriving DecidableEq, Repr

/-- Environment oracles: `allocOk n` is the outcome of the `n`-th heap
allocation (`gsm_mem_alloc` / `GSM_MSG_VAR_ALLOC`), `sendRes n` the result
of the `n`-th producer-queue submission.  The counters record how many of
each have happened. -/
structure World where
  allocOk : Nat → Bool
  sendRes : Nat → Gsmr
  allocs : Nat
  sends : Nat

/-- Consume the next allocation outcome. -/
def World.alloc (w : World) : Bool × World :=
  (w.allocOk w.allocs, { w with allocs := w.allocs + 1 })

/-- Consume the next producer-queue submission result. -/
def World.send (w : World) : Gsmr × World :=
  (w.sendRes w.sends, { w with sends := w.sends + 1 })

/-- Result of an operation that may mutate the connection. -/
structure Out where
  res : Gsmr
  conn : Conn
  world : World
  trace : List Ev

/-- Result of `gsm_conn_write`: additionally the value stored through the
`mem_available` output pointer (`none` when the call returns without
writing it). -/
structure WOut where
  res : Gsmr
  conn : Conn
  world : World
  trace : List Ev
  memAvail : Option Nat

/-- `conn_send` (gsm_conn.c:96-121): build a `CIPSEND` envelope and submit
it to the producer mailbox.  The `GSM_ASSERT("btw > 0", ...)` guard
returns `gsmPARERR` on a zero-length payload; envelope allocation failure
returns `gsmERRMEM`; otherwise the envelope captures
`conn_get_val_id(conn)` — a read of `conn->val_id` performed between
`GSM_CORE_PROTECT` and `GSM_CORE_UNPROTECT` — and the submission result is
returned. -/
def conn_send (c : Conn) (w : World) (d : List Nat) (fau : Bool) (blocking : Bool) :
    Gsmr × World × List Ev :=
  if d.length = 0 then
    (Gsmr.gsmPARERR, w, [])
  else
    let a := w.alloc
    if a.1 then
      let v := c.val_id
      let s := a.2.send
      (s.1, s.2,
        [Ev.allocMsg true, Ev.protect, Ev.readValId v, Ev.unprotect,
         Ev.submit { cmd_def := CmdDef.CIPSEND, val_id := some v, data := d,
                     fau := fau, blocking := blocking } s.1])
    else
      (Gsmr.gsmERRMEM, a.2, [Ev.allocMsg false])

/-- `flush_buff` (gsm_conn.c:128-151): under the Core Lock, if a write
buffer exists, submit its staged content as a non-blocking free-after-use
send when non-empty (else `gsmERR`); free the buffer on any non-`gsmOK`
result; in all cases clear the connection's buffer reference.  With no
buffer present the initial `res = gsmOK` is returned unchanged. -/
def flush_buff (c : Conn) (w : World) : Out :=
  match c.buff with
  | none =>
      { res := Gsmr.gsmOK, conn := c, world := w,
        trace := [Ev.protect, Ev.unprotect] }
  | some b =>
      if b.staged.length ≠ 0 then
        let s := conn_send c w b.staged true false
        if s.1 = Gsmr.gsmOK then
          { res := s.1, conn := { c with buff := none }, world := s.2.1,
            trace := [Ev.protect] ++ s.2.2 ++ [Ev.unprotect] }
        else
          { res := s.1, conn := { c with buff := none }, world := s.2.1,
            trace := [Ev.protect] ++ s.2.2 ++ [Ev.freeBuff, Ev.unprotect] }
      else
        { res := Gsmr.gsmERR, conn := { c with buff := none }, world := w,
          trace := [Ev.protect, Ev.freeBuff, Ev.unprotect] }

/-- `gsm_conn_close` (gsm_conn.c:200-232): reject (`gsmERR`) under the Core
Lock if the connection is already in closing mode or not active; otherwise
allocate a `CIPCLOSE` envelope carrying `conn_get_val_id(conn)`, flush the
write buffer, submit with a 1000 ms limit, and on non-blocking success set
`in_closing`. -/
def gsm_conn_close (c : Conn) (w : World) (blocking : Bool) : Out :=
  if c.in_closing || !c.active then
    { res := Gsmr.gsmERR, conn := c, world := w,
      trace := [Ev.protect, Ev.unprotect] }
  else
    let a := w.alloc
    if a.1 then
      let v := c.val_id
      let f := flush_buff c a.2
      let s := f.world.send
      let m : Msg := { cmd_def := CmdDef.CIPCLOSE, val_id := some v,
                       data := [], fau := false, blocking := blocking }
      let tr := [Ev.protect, Ev.unprotect, Ev.allocMsg true,
                 Ev.protect, Ev.readValId v, Ev.unprotect] ++ f.trace ++
                [Ev.submit m s.1]
      if s.1 = Gsmr.gsmOK && !blocking then
        { res := s.1, conn := { f.conn with in_closing := true }, world := s.2,
          trace := tr ++ [Ev.protect, Ev.unprotect] }
      else
        { res := s.1, conn := f.conn, world := s.2, trace := tr }
    else
      { res := Gsmr.gsmERRMEM, conn := c, world := a.2,
        trace := [Ev.protect, Ev.unprotect, Ev.allocMsg false] }

/-- `gsm_conn_write`, step 1 (gsm_conn.c:503-522): if a write buffer
exists, copy `min(buff.len - buff.ptr, btw)` input bytes to its tail; if
the buffer is now full or `flush` is set, submit the staged bytes as a
non-blocking free-after-use send, freeing them manually on any failure,
and clear the buffer reference.  Returns the updated connection, world,
events, and remaining input. -/
def write_step1 (c : Conn) (w : World) (d : List Nat) (flush : Bool) :
    Conn × World × List Ev × List Nat :=
  match c.buff with
  | none => (c, w, [], d)
  | some b =>
      let len := min (b.cap - b.staged.length) d.length
      let b1 : ConnBuff := { cap := b.cap, staged := b.staged ++ d.take len }
      let d1 := d.drop len
      if b1.staged.length = b1.cap || flush then
        let s := conn_send c w b1.staged true false
        if s.1 = Gsmr.gsmOK then
          ({ c with buff := none }, s.2.1, s.2.2, d1)
        else
          ({ c with buff := none }, s.2.1, s.2.2 ++ [Ev.freeBuff], d1)
      else
        ({ c with buff := some b1 }, w, [], d1)

/-- `gsm_conn_write`, step 2 (gsm_conn.c:525-543): while at least
`GSM_CFG_CONN_MAX_DATA_LEN` (`maxLen`) input bytes remain, allocate a
full-size buffer, copy one chunk and submit it as a non-blocking
free-after-use send; allocation failure returns `gsmERRMEM`, submission
failure frees the chunk and returns `gsmERRMEM`.  Returns the loop's
result, world, events, and un-consumed input.  The recursion is driven by
a structural `fuel` counter, spent one unit per iteration; since every
iteration consumes at least `maxLen ≥ 1` input bytes, `fuel = d.length`
(as supplied by `write_step2`) always outlasts the loop, and the
exhausted-fuel branch coincides with the loop's normal exit (it is only
reached with `d = []`). -/
def write_step2_aux (c : Conn) (maxLen : Nat) :
    Nat → World → List Nat → Gsmr × World × List Ev × List Nat
  | 0, w, d => (Gsmr.gsmOK, w, [], d)
  | fuel + 1, w, d =>
    if 0 < maxLen ∧ maxLen ≤ d.length then
      let chunk := d.take maxLen
      let a := w.alloc
      if a.1 then
        let s := conn_send c a.2 chunk true false
        if s.1 = Gsmr.gsmOK then
          let rest := write_step2_aux c maxLen fuel s.2.1 (d.drop maxLen)
          (rest.1, rest.2.1, (Ev.allocBuff true :: s.2.2) ++ rest.2.2.1,
           rest.2.2.2)
        else
          (Gsmr.gsmERRMEM, s.2.1, (Ev.allocBuff true :: s.2.2) ++ [Ev.freeBuff],
           d.drop maxLen)
      else
        (Gsmr.gsmERRMEM, a.2, [Ev.allocBuff false], d)
    else
      (Gsmr.gsmOK, w, [], d)

/-- The step-2 chunking loop of `gsm_conn_write` (gsm_conn.c:525-543). -/
def write_step2 (c : Conn) (maxLen : Nat) (w : World) (d : List Nat) :
    Gsmr × World × List Ev × List Nat :=
  write_step2_aux c maxLen d.length w d

/-- `gsm_conn_write`, step 4 and the final report (gsm_conn.c:565-578):
flush the buffer when `flush` is set and a buffer exists (result ignored),
then store through `mem_available` the buffer's free capacity, or `0` when
no buffer exists. -/
def write_step4 (c : Conn) (w : World) (evs : List Ev) (flush : Bool) : WOut :=
  let f :=
    match flush, c.buff with
    | true, some _ =>
        let o := flush_buff c w
        (o.conn, o.world, o.trace)
    | _, _ => (c, w, ([] : List Ev))
  { res := Gsmr.gsmOK, conn := f.1, world := f.2.1, trace := evs ++ f.2.2,
    memAvail := some (match f.1.buff with
                      | some b => b.cap - b.staged.length
                      | none => 0) }

/-- `gsm_conn_write`, step 3 (gsm_conn.c:545-563) followed by step 4: when
no buffer exists, allocate a fresh one of capacity `maxLen` with zero
bytes used; if input remains, copy it from the start of the buffer
(`gsmERRMEM` when no buffer could be allocated); then run step 4. -/
def write_step3 (c : Conn) (maxLen : Nat) (w : World) (rest : List Nat)
    (flush : Bool) : WOut :=
  let t :=
    match c.buff with
    | some _ => (c, w, ([] : List Ev))
    | none =>
        let a := w.alloc
        if a.1 then
          ({ c with buff := some { cap := maxLen, staged := [] } }, a.2,
           [Ev.allocBuff true])
        else
          (c, a.2, [Ev.allocBuff false])
  if rest = [] then
    write_step4 t.1 t.2.1 t.2.2 flush
  else
    match t.1.buff with
    | some b =>
        write_step4 { t.1 with buff := some { cap := b.cap, staged := rest } }
          t.2.1 t.2.2 flush
    | none =>
        { res := Gsmr.gsmERRMEM, conn := t.1, world := t.2.1, trace := t.2.2,
          memAvail := none }

/-- `gsm_conn_write` (gsm_conn.c:482-579): the staged-buffer step, the
full-size chunk loop (early `gsmERRMEM` return skips steps 3 and 4 and
leaves `mem_available` unwritten), then the remaining-buffer and flush
steps. -/
def gsm_conn_write (c : Conn) (maxLen : Nat) (w : World) (d : List Nat)
    (flush : Bool) : WOut :=
  let s1 := write_step1 c w d flush
  let s2 := write_step2 s1.1 maxLen s1.2.1 s1.2.2.2
  if s2.1 = Gsmr.gsmOK then
    let o := write_step3 s1.1 maxLen s2.2.1 s2.2.2.2 flush
    { o with trace := s1.2.2.1 ++ s2.2.2.1 ++ o.trace }
  else
    { res := s2.1, conn := s1.1, world := s2.2.1,
      trace := s1.2.2.1 ++ s2.2.2.1, memAvail := none }

/-- `gsm_conn_send` (gsm_conn.c:264-290): under the Core Lock copy what
fits into an existing write buffer, then flush it, then submit any
remaining bytes directly with the caller's blocking flag.  The
`GSM_ASSERT("btw > 0", ...)` guard returns `gsmPARERR`. -/
def gsm_conn_send (c : Conn) (w : World) (d : List Nat) (blocking : Bool) : Out :=
  if d.length = 0 then
    { res := Gsmr.gsmPARERR, conn := c, world := w, trace := [] }
  else
    let t :=
      match c.buff with
      | some b =>
          let to_copy := min d.length (b.cap - b.staged.length)
          ({ c with buff := some { cap := b.cap,
                                   staged := b.staged ++ d.take to_copy } },
           d.drop to_copy)
      | none => (c, d)
    let f := flush_buff t.1 w
    if t.2 = [] then
      { res := f.res, conn := f.conn, world := f.world,
        trace := [Ev.protect, Ev.unprotect] ++ f.trace }
    else
      let s := conn_send t.1 f.world t.2 false blocking
      { res := s.1, conn := f.conn, world := s.2.1,
        trace := [Ev.protect, Ev.unprotect] ++ f.trace ++ s.2.2 }

/-- `gsm_conn_sendto` (gsm_conn.c:246-252): flush any staged buffer, then
submit the data directly with the caller's blocking flag. -/
def gsm_conn_sendto (c : Conn) (w : World) (d : List Nat) (blocking : Bool) : Out :=
  let f := flush_buff c w
  let s := conn_send c f.world d false blocking
  { res := s.1, conn := f.conn, world := s.2.1, trace := f.trace ++ s.2.2 }

/-- `gsm_conn_is_active` (gsm_conn.c:406-415): `valid` models
`conn != NULL && gsmi_is_valid_conn_ptr(conn)`; for a valid pointer the
lock-protected read of `status.f.active` is returned, else `0`. -/
def gsm_conn_is_active (valid : Bool) (c : Conn) : Nat :=
  if valid then (if c.active then 1 else 0) else 0

/-- `gsm_conn_is_closed` (gsm_conn.c:422-431): for a valid pointer returns
`!conn->status.f.active`, else `0`. -/
def gsm_conn_is_closed (valid : Bool) (c : Conn) : Nat :=
  if valid then (if c.active then 0 else 1) else 0

/-- `conn_timeout_cb` (gsm_conn.c:44-57): when the connection is active,
emit a `GSM_EVT_CONN_POLL` callback and re-arm the timer via
`gsm_timeout_add`; otherwise do nothing. -/
def conn_timeout_cb (c : Conn) : List Ev :=
  if c.active then [Ev.pollEvt, Ev.timeoutAdd] else []

/-- `gsmi_conn_start_timeout` (gsm_conn.c:63-66): arm the poll timer once. -/
def gsmi_conn_start_timeout : List Ev :=
  [Ev.timeoutAdd]

/-- Whether the poll timer is armed for its `n`-th potential firing:
`gsmi_conn_start_timeout` arms firing `0`, and firing `n + 1` is armed
exactly when firing `n` happened and `conn_timeout_cb` re-armed the timer,
i.e. when the connection was active at firing `n` (`activity n`). -/
def timerArmed (activity : Nat → Bool) : Nat → Bool
  | 0 => true
  | n + 1 => timerArmed activity n && activity n

/-- Events produced at the `n`-th potential firing of the poll timer for a
connection whose activity flag at that moment is `activity n`. -/
def timerFire (c : Conn) (activity : Nat → Bool) (n : Nat) : List Ev :=
  if timerArmed activity n then
    conn_timeout_cb { c with active := activity n }
  else
    []

/-- Payloads of the successfully queued `CIPSEND` submissions of a trace,
in order. -/
def sentChunks (tr : List Ev) : List (List Nat) :=
  tr.filterMap fun e =>
    match e with
    | Ev.submit m Gsmr.gsmOK =>
        if m.cmd_def = CmdDef.CIPSEND then some m.data else none
    | _ => none

/-- Number of `CIPCLOSE` submissions (accepted or not) in a trace. -/
def closeSubmitCount (tr : List Ev) : Nat :=
  tr.countP fun e =>
    match e with
    | Ev.submit m _ => decide (m.cmd_def = CmdDef.CIPCLOSE)
    | _ => false

/-- Whether a trace contains any producer-queue submission. -/
def hasSubmit (tr : List Ev) : Bool :=
  tr.any fun e =>
    match e with
    | Ev.submit _ _ => true
    | _ => false

/-- Bytes staged in a connection's write buffer (empty when no buffer). -/
def connStaged (c : Conn) : List Nat :=
  match c.buff with
  | some b => b.staged
  | none => []

/-- Core-Lock depth after processing a trace, starting from depth `d`. -/
def depthAfter (d : Nat) : List Ev → Nat
  | [] => d
  | Ev.protect :: t => depthAfter (d + 1) t
  | Ev.unprotect :: t => depthAfter (d - 1) t
  | _ :: t => depthAfter d t

/-- The claim's lock discipline: starting from lock depth `d`, every
producer-queue submission in the trace happens at depth `0`. -/
def submitsAtDepthZero (d : Nat) : List Ev → Bool
  | [] => true
  | Ev.protect :: t => submitsAtDepthZero (d + 1) t
  | Ev.unprotect :: t => submitsAtDepthZero (d - 1) t
  | Ev.submit _ _ :: t => decide (d = 0) && submitsAtDepthZero d t
  | _ :: t => submitsAtDepthZero d t

/-- Weakened lock discipline: starting from lock depth `d`, every
*blocking* producer-queue submission in the trace happens at depth `0`. -/
def blockingSubmitsUnlocked (d : Nat) : List Ev → Bool
  | [] => true
  | Ev.protect :: t => blockingSubmitsUnlocked (d + 1) t
  | Ev.unprotect :: t => blockingSubmitsUnlocked (d - 1) t
  | Ev.submit m _ :: t =>
      (decide (d = 0) || !m.blocking) && blockingSubmitsUnlocked d t
  | _ :: t => blockingSubmitsUnlocked d t

/-- Every submission in the trace is non-blocking. -/
def submitsNonBlocking (tr : List Ev) : Bool :=
  tr.all fun e =>
    match e with
    | Ev.submit m _ => !m.blocking
    | _ => true

/-- Starting from lock depth `d`, every read of `conn->val_id` in the
trace happens with the Core Lock held (depth at least `1`). -/
def valReadsLocked (d : Nat) : List Ev → Bool
  | [] => true
  | Ev.protect :: t => valReadsLocked (d + 1) t
  | Ev.unprotect :: t => valReadsLocked (d - 1) t
  | Ev.readValId _ :: t => decide (0 < d) && valReadsLocked d t
  | _ :: t => valReadsLocked d t

/-- Whether the trace contains a read of validation id `v`. -/
def readsValId (v : Nat) (tr : List Ev) : Bool :=
  tr.any fun e =>
    match e with
    | Ev.readValId u => decide (u = v)
    | _ => false

/-- Every `CIPSEND` or `CIPCLOSE` submission in the trace carries
validation id `v` in its envelope and is preceded by a read of `v`
(`seen` records whether such a read already happened). -/
def sendsCarryValId (v : Nat) (seen : Bool) : List Ev → Bool
  | [] => true
  | Ev.readValId u :: t => sendsCarryValId v (seen || decide (u = v)) t
  | Ev.submit m _ :: t =>
      (match m.cmd_def with
       | CmdDef.CIPSEND => seen && decide (m.val_id = some v)
       | CmdDef.CIPCLOSE => seen && decide (m.val_id = some v)
       | _ => true) && sendsCarryValId v seen t
  | _ :: t => sendsCarryValId v seen t

/-- An environment in which every allocation and every producer-queue
submission succeeds. -/
def allOkWorld : World :=
  { allocOk := fun _ => true, sendRes := fun _ => Gsmr.gsmOK,
    allocs := 0, sends := 0 }

/-- A sample connection with no write buffer. -/
def connNoBuff : Conn :=
  { num := 0, val_id := 3, active := true, in_closing := false,
    client := true, buff := none, total_recved := 0 }

/-- A sample connection with one staged byte in a two-byte buffer. -/
def connOneStaged : Conn :=
  { connNoBuff with buff := some { cap := 2, staged := [7] } }

/-- An environment in which every allocation fails (submissions accepted). -/
def noMemWorld : World :=
  { allOkWorld with allocOk := fun _ => false }

/-- Bundle of trace facts: lock-balanced from any depth, validation-id
reads under the lock, and send/close submissions carrying validation id
`v` read beforehand. -/
def GoodTr (v : Nat) (tr : List Ev) : Prop :=
  (∀ k, depthAfter k tr = k) ∧
  (∀ k, valReadsLocked k tr = true) ∧
  (∀ seen, sendsCarryValId v seen tr = true)

/-- An environment in which every allocation and every submission
succeeds. -/
def Oks (w : World) : Prop :=
  (∀ n, w.allocOk n = true) ∧ (∀ n, w.sendRes n = Gsmr.gsmOK)

/-- Free capacity of a connection's write buffer (`buff.len - buff.ptr`),
`0` when no buffer exists: the value `gsm_conn_write` reports through
`mem_available`. -/
def availOf (c : Conn) : Nat :=
  match c.buff with
  | some b => b.cap - b.staged.length
  | none => 0

/-! ## Helper lemmas -/

/-- Once the connection is inactive at firing `m`, the timer is no longer
armed at any later firing. -/
theorem timerArmed_eq_false (activity : Nat → Bool) {m n : Nat} (hmn : m < n)
    (hm : activity m = false) : timerArmed activity n = false := by
  induction n with
  | zero => omega
  | succ k ih =>
      rcases Nat.lt_succ_iff_lt_or_eq.mp hmn with h | h
      · simp [timerArmed, ih h]
      · subst h
        simp [timerArmed, hm]

/-- The chunking loop does nothing on empty input. -/
theorem write_step2_aux_nil (c : Conn) (maxLen fuel : Nat) (w : World) :
    write_step2_aux c maxLen fuel w [] = (Gsmr.gsmOK, w, [], []) := by
  cases fuel with
  | zero => rfl
  | succ k =>
      rw [write_step2_aux, if_neg]
      rintro ⟨h1, h2⟩
      simp at h2
      omega

/-- `conn_send` never changes the environment's oracle functions. -/
theorem conn_send_world (c : Conn) (w : World) (d : List Nat) (fau bl : Bool) :
    (conn_send c w d fau bl).2.1.allocOk = w.allocOk ∧
    (conn_send c w d fau bl).2.1.sendRes = w.sendRes := by
  simp only [conn_send, World.alloc, World.send]
  split
  · exact ⟨rfl, rfl⟩
  · split <;> exact ⟨rfl, rfl⟩

/-- `flush_buff` never changes the environment's oracle functions. -/
theorem flush_buff_world (c : Conn) (w : World) :
    (flush_buff c w).world.allocOk = w.allocOk ∧
    (flush_buff c w).world.sendRes = w.sendRes := by
  rcases hb : c.buff with _ | b
  · simp [flush_buff, hb]
  · simp only [flush_buff, hb]
    split
    · split
      · exact conn_send_world c w b.staged true false
      · exact conn_send_world c w b.staged true false
    · exact ⟨rfl, rfl⟩

/-- `flush_buff` changes only the connection's buffer field. -/
theorem flush_buff_conn_fields (c : Conn) (w : World) :
    (flush_buff c w).conn.active = c.active ∧
    (flush_buff c w).conn.in_closing = c.in_closing ∧
    (flush_buff c w).conn.val_id = c.val_id := by
  rcases hb : c.buff with _ | b
  · simp [flush_buff, hb]
  · simp only [flush_buff, hb]
    split
    · split <;> exact ⟨rfl, rfl, rfl⟩
    · exact ⟨rfl, rfl, rfl⟩

/-- `conn_send` submits no close command. -/
theorem closeSubmitCount_conn_send (c : Conn) (w : World) (d : List Nat)
    (fau bl : Bool) : closeSubmitCount (conn_send c w d fau bl).2.2 = 0 := by
  simp only [conn_send]
  split
  · simp [closeSubmitCount]
  · split <;> simp [closeSubmitCount]

/-- `flush_buff` submits no close command. -/
theorem closeSubmitCount_flush_buff (c : Conn) (w : World) :
    closeSubmitCount (flush_buff c w).trace = 0 := by
  rcases hb : c.buff with _ | b
  · simp [flush_buff, hb, closeSubmitCount]
  · simp only [flush_buff, hb]
    split
    · have h := closeSubmitCount_conn_send c w b.staged true false
      split <;>
        simpa [closeSubmitCount, List.countP_append] using h
    · simp [closeSubmitCount]

theorem depthAfter_append (a b : List Ev) (d : Nat) :
    depthAfter d (a ++ b) = depthAfter (depthAfter d a) b := by
  induction a generalizing d with
  | nil => rfl
  | cons e t ih => cases e <;> simp [depthAfter, ih]

theorem blockingSubmitsUnlocked_append (a b : List Ev) (d : Nat) :
    blockingSubmitsUnlocked d (a ++ b) =
      (blockingSubmitsUnlocked d a &&
        blockingSubmitsUnlocked (depthAfter d a) b) := by
  induction a generalizing d with
  | nil => simp [blockingSubmitsUnlocked, depthAfter]
  | cons e t ih =>
      cases e <;>
        simp [blockingSubmitsUnlocked, depthAfter, ih, Bool.and_assoc]

theorem valReadsLocked_append (a b : List Ev) (d : Nat) :
    valReadsLocked d (a ++ b) =
      (valReadsLocked d a && valReadsLocked (depthAfter d a) b) := by
  induction a generalizing d with
  | nil => simp [valReadsLocked, depthAfter]
  | cons e t ih =>
      cases e <;> simp [valReadsLocked, depthAfter, ih, Bool.and_assoc]

theorem sendsCarryValId_append (v : Nat) (seen : Bool) (a b : List Ev) :
    sendsCarryValId v seen (a ++ b) =
      (sendsCarryValId v seen a &&
        sendsCarryValId v (seen || readsValId v a) b) := by
  induction a generalizing seen with
  | nil => simp [sendsCarryValId, readsValId]
  | cons e t ih =>
      cases e <;>
        simp [sendsCarryValId, readsValId, ih, Bool.and_assoc, Bool.or_assoc]

theorem depthAfter_conn_send (c : Conn) (w : World) (d : List Nat)
    (fau bl : Bool) (k : Nat) :
    depthAfter k (conn_send c w d fau bl).2.2 = k := by
  simp only [conn_send]
  split
  · rfl
  · split <;> simp [depthAfter]

theorem depthAfter_flush_buff (c : Conn) (w : World) (k : Nat) :
    depthAfter k (flush_buff c w).trace = k := by
  rcases hb : c.buff with _ | b
  · simp [flush_buff, hb, depthAfter]
  · simp only [flush_buff, hb]
    split
    · split <;>
        simp [depthAfter, depthAfter_append, depthAfter_conn_send]
    · simp [depthAfter]

theorem blockingSubmitsUnlocked_conn_send (c : Conn) (w : World)
    (d : List Nat) (fau bl : Bool) (k : Nat) (h : k = 0 ∨ bl = false) :
    blockingSubmitsUnlocked k (conn_send c w d fau bl).2.2 = true := by
  simp only [conn_send]
  split
  · rfl
  · split
    · rcases h with h | h <;> simp [blockingSubmitsUnlocked, h]
    · rfl

theorem blockingSubmitsUnlocked_flush_buff (c : Conn) (w : World) (k : Nat) :
    blockingSubmitsUnlocked k (flush_buff c w).trace = true := by
  rcases hb : c.buff with _ | b
  · simp [flush_buff, hb, blockingSubmitsUnlocked]
  · simp only [flush_buff, hb]
    split
    · split <;>
        simp [blockingSubmitsUnlocked, blockingSubmitsUnlocked_append,
          depthAfter_append, depthAfter_conn_send,
          blockingSubmitsUnlocked_conn_send c _ b.staged true false _
            (Or.inr rfl)]
    · simp [blockingSubmitsUnlocked]

theorem valReadsLocked_conn_send (c : Conn) (w : World) (d : List Nat)
    (fau bl : Bool) (k : Nat) :
    valReadsLocked k (conn_send c w d fau bl).2.2 = true := by
  simp only [conn_send]
  split
  · rfl
  · split <;> simp [valReadsLocked]

theorem valReadsLocked_flush_buff (c : Conn) (w : World) (k : Nat) :
    valReadsLocked k (flush_buff c w).trace = true := by
  rcases hb : c.buff with _ | b
  · simp [flush_buff, hb, valReadsLocked]
  · simp only [flush_buff, hb]
    split
    · split <;>
        simp [valReadsLocked, valReadsLocked_append, depthAfter_append,
          depthAfter_conn_send, valReadsLocked_conn_send]
    · simp [valReadsLocked]

theorem sendsCarryValId_conn_send (c : Conn) (w : World) (d : List Nat)
    (fau bl : Bool) (seen : Bool) :
    sendsCarryValId c.val_id seen (conn_send c w d fau bl).2.2 = true := by
  simp only [conn_send]
  split
  · rfl
  · split
    · simp [sendsCarryValId]
    · rfl

theorem sendsCarryValId_flush_buff (c : Conn) (w : World) (seen : Bool) :
    sendsCarryValId c.val_id seen (flush_buff c w).trace = true := by
  rcases hb : c.buff with _ | b
  · simp [flush_buff, hb, sendsCarryValId]
  · simp only [flush_buff, hb]
    split
    · split <;>
        simp [sendsCarryValId, sendsCarryValId_append,
          sendsCarryValId_conn_send]
    · simp [sendsCarryValId]

/-- A trace whose submissions are all non-blocking has its blocking
submissions (vacuously) at depth zero, from any starting depth. -/
theorem blockingSubmitsUnlocked_of_nonBlocking {tr : List Ev}
    (h : submitsNonBlocking tr = true) (k : Nat) :
    blockingSubmitsUnlocked k tr = true := by
  induction tr generalizing k with
  | nil => rfl
  | cons e t ih =>
      cases e <;>
        simp only [submitsNonBlocking, List.all_cons, Bool.and_eq_true,
          true_and] at h <;>
        first
        | simp [blockingSubmitsUnlocked, ih h]
        | simp [blockingSubmitsUnlocked, ih h.2, h.1]

theorem GoodTr.nil (v : Nat) : GoodTr v [] :=
  ⟨fun _ => rfl, fun _ => rfl, fun _ => rfl⟩

theorem GoodTr.append {v : Nat} {a b : List Ev} (ha : GoodTr v a)
    (hb : GoodTr v b) : GoodTr v (a ++ b) := by
  obtain ⟨d1, l1, s1⟩ := ha
  obtain ⟨d2, l2, s2⟩ := hb
  refine ⟨fun k => ?_, fun k => ?_, fun seen => ?_⟩
  · rw [depthAfter_append, d1, d2]
  · rw [valReadsLocked_append, l1, d1]
    simp [l2]
  · rw [sendsCarryValId_append, s1]
    simp [s2]

theorem GoodTr.consAllocBuff {v : Nat} {tr : List Ev} (ok : Bool)
    (h : GoodTr v tr) : GoodTr v (Ev.allocBuff ok :: tr) :=
  ⟨fun k => h.1 k, fun k => h.2.1 k, fun seen => h.2.2 seen⟩

theorem GoodTr.consFreeBuff {v : Nat} {tr : List Ev}
    (h : GoodTr v tr) : GoodTr v (Ev.freeBuff :: tr) :=
  ⟨fun k => h.1 k, fun k => h.2.1 k, fun seen => h.2.2 seen⟩

theorem GoodTr_conn_send (c : Conn) (w : World) (d : List Nat)
    (fau bl : Bool) : GoodTr c.val_id (conn_send c w d fau bl).2.2 :=
  ⟨depthAfter_conn_send c w d fau bl,
   valReadsLocked_conn_send c w d fau bl,
   sendsCarryValId_conn_send c w d fau bl⟩

theorem GoodTr_flush_buff (c : Conn) (w : World) :
    GoodTr c.val_id (flush_buff c w).trace :=
  ⟨depthAfter_flush_buff c w,
   valReadsLocked_flush_buff c w,
   sendsCarryValId_flush_buff c w⟩

/-- `write_step1` changes only the connection's buffer field. -/
theorem write_step1_conn (c : Conn) (w : World) (d : List Nat) (fl : Bool) :
    (write_step1 c w d fl).1.val_id = c.val_id ∧
    (write_step1 c w d fl).1.active = c.active ∧
    (write_step1 c w d fl).1.in_closing = c.in_closing := by
  rcases hb : c.buff with _ | b <;> simp only [write_step1, hb]
  · simp
  · split
    · split <;> simp
    · simp

theorem GoodTr_write_step1 (c : Conn) (w : World) (d : List Nat)
    (fl : Bool) : GoodTr c.val_id (write_step1 c w d fl).2.2.1 := by
  rcases hb : c.buff with _ | b <;> simp only [write_step1, hb]
  · exact GoodTr.nil _
  · split
    · split
      · exact GoodTr_conn_send c w _ true false
      · exact (GoodTr_conn_send c w _ true false).append
          ((GoodTr.nil _).consFreeBuff)
    · exact GoodTr.nil _

theorem GoodTr_write_step2_aux (c : Conn) (maxLen : Nat) (fuel : Nat) :
    ∀ (w : World) (d : List Nat),
      GoodTr c.val_id (write_step2_aux c maxLen fuel w d).2.2.1 := by
  induction fuel with
  | zero => intro w d; exact GoodTr.nil _
  | succ k ih =>
      intro w d
      simp only [write_step2_aux]
      split
      · split
        · split
          · exact ((GoodTr_conn_send c _ _ true false).consAllocBuff
              true).append (ih _ _)
          · exact ((GoodTr_conn_send c _ _ true false).consAllocBuff
              true).append ((GoodTr.nil _).consFreeBuff)
        · exact (GoodTr.nil _).consAllocBuff false
      · exact GoodTr.nil _

theorem GoodTr_write_step4 (c : Conn) (w : World) (evs : List Ev)
    (fl : Bool) (h : GoodTr c.val_id evs) :
    GoodTr c.val_id (write_step4 c w evs fl).trace := by
  rcases hfl : fl <;> rcases hb : c.buff with _ | b <;>
    simp only [write_step4, hfl, hb]
  · exact h.append (GoodTr.nil _)
  · exact h.append (GoodTr.nil _)
  · exact h.append (GoodTr.nil _)
  · exact h.append (GoodTr_flush_buff c w)

theorem GoodTr_write_step3 (c : Conn) (maxLen : Nat) (w : World)
    (rest : List Nat) (fl : Bool) :
    GoodTr c.val_id (write_step3 c maxLen w rest fl).trace := by
  have h4 : ∀ (c' : Conn) (w' : World) (evs : List Ev),
      GoodTr c.val_id evs → c'.val_id = c.val_id →
      GoodTr c.val_id (write_step4 c' w' evs fl).trace := by
    intro c' w' evs he hv
    have hgood := GoodTr_write_step4 c' w' evs fl (by rw [hv]; exact he)
    rwa [hv] at hgood
  rcases hb : c.buff with _ | b
  · rcases ha : w.alloc.1 <;> by_cases hr : rest = [] <;>
      simp only [write_step3, hb, ha, Bool.false_eq_true, Bool.true_eq_false,
        if_true, if_false, hr, ite_true, ite_false, reduceIte]
    · exact h4 _ _ _ ((GoodTr.nil _).consAllocBuff false) rfl
    · exact (GoodTr.nil _).consAllocBuff false
    · exact h4 _ _ _ ((GoodTr.nil _).consAllocBuff true) rfl
    · exact h4 _ _ _ ((GoodTr.nil _).consAllocBuff true) rfl
  · by_cases hr : rest = [] <;>
      simp only [write_step3, hb, hr, ite_true, ite_false, reduceIte]
    · exact h4 _ _ _ (GoodTr.nil _) rfl
    · exact h4 _ _ _ (GoodTr.nil _) rfl

theorem GoodTr_gsm_conn_write (c : Conn) (maxLen : Nat) (w : World)
    (d : List Nat) (fl : Bool) :
    GoodTr c.val_id (gsm_conn_write c maxLen w d fl).trace := by
  rcases hs1 : write_step1 c w d fl with ⟨c1, w1, evs1, d1⟩
  have h1 := GoodTr_write_step1 c w d fl
  rw [hs1] at h1
  have hv := (write_step1_conn c w d fl).1
  rw [hs1] at hv
  rcases hs2 : write_step2_aux c1 maxLen d1.length w1 d1 with ⟨r2, w2, evs2, d2⟩
  have h2 := GoodTr_write_step2_aux c1 maxLen d1.length w1 d1
  rw [hs2] at h2
  rw [hv] at h2
  have h3 := GoodTr_write_step3 c1 maxLen w2 d2 fl
  rw [hv] at h3
  simp only [gsm_conn_write, write_step2, hs1, hs2]
  split
  · exact (h1.append h2).append h3
  · exact h1.append h2

theorem GoodTr_gsm_conn_send (c : Conn) (w : World) (d : List Nat)
    (bl : Bool) : GoodTr c.val_id (gsm_conn_send c w d bl).trace := by
  have hpu : GoodTr c.val_id [Ev.protect, Ev.unprotect] :=
    ⟨fun _ => rfl, fun _ => rfl, fun _ => rfl⟩
  simp only [gsm_conn_send]
  split
  · exact GoodTr.nil _
  · rcases hb : c.buff with _ | b <;> simp only [hb] <;> split <;>
      first
      | exact hpu.append (GoodTr_flush_buff _ _)
      | exact hpu.append ((GoodTr_flush_buff _ _).append
          (GoodTr_conn_send _ _ _ false bl))

theorem GoodTr_gsm_conn_sendto (c : Conn) (w : World) (d : List Nat)
    (bl : Bool) : GoodTr c.val_id (gsm_conn_sendto c w d bl).trace :=
  (GoodTr_flush_buff c w).append (GoodTr_conn_send c _ d false bl)

theorem GoodTr_gsm_conn_close (c : Conn) (w : World) (bl : Bool) :
    GoodTr c.val_id (gsm_conn_close c w bl).trace := by
  simp only [gsm_conn_close]
  split
  · exact ⟨fun _ => rfl, fun _ => rfl, fun _ => rfl⟩
  · split
    · split <;>
        · refine ⟨fun k => ?_, fun k => ?_, fun seen => ?_⟩ <;>
            simp [depthAfter_append, valReadsLocked_append,
              sendsCarryValId_append, depthAfter, valReadsLocked,
              sendsCarryValId, readsValId, depthAfter_flush_buff,
              valReadsLocked_flush_buff, sendsCarryValId_flush_buff]
    · exact ⟨fun _ => rfl, fun _ => rfl, fun _ => rfl⟩

theorem submitsNonBlocking_append (a b : List Ev) :
    submitsNonBlocking (a ++ b) =
      (submitsNonBlocking a && submitsNonBlocking b) := by
  simp [submitsNonBlocking]

theorem submitsNonBlocking_nil : submitsNonBlocking [] = true := rfl

theorem submitsNonBlocking_cons (e : Ev) (tr : List Ev) :
    submitsNonBlocking (e :: tr) =
      ((match e with
        | Ev.submit m _ => !m.blocking
        | _ => true) && submitsNonBlocking tr) := by
  simp [submitsNonBlocking]

theorem submitsNonBlocking_conn_send (c : Conn) (w : World) (d : List Nat)
    (fau : Bool) :
    submitsNonBlocking (conn_send c w d fau false).2.2 = true := by
  simp only [conn_send]
  split
  · rfl
  · split <;> simp [submitsNonBlocking]

theorem submitsNonBlocking_flush_buff (c : Conn) (w : World) :
    submitsNonBlocking (flush_buff c w).trace = true := by
  rcases hb : c.buff with _ | b
  · simp [flush_buff, hb, submitsNonBlocking]
  · simp only [flush_buff, hb]
    split
    · split <;>
        simp [submitsNonBlocking_append, submitsNonBlocking_cons,
          submitsNonBlocking_nil, submitsNonBlocking_conn_send]
    · simp [submitsNonBlocking]

theorem submitsNonBlocking_write_step1 (c : Conn) (w : World) (d : List Nat)
    (fl : Bool) : submitsNonBlocking (write_step1 c w d fl).2.2.1 = true := by
  rcases hb : c.buff with _ | b <;> simp only [write_step1, hb]
  · rfl
  · split
    · split <;>
        simp [submitsNonBlocking_append, submitsNonBlocking_cons,
          submitsNonBlocking_nil, submitsNonBlocking_conn_send]
    · rfl

theorem submitsNonBlocking_write_step2_aux (c : Conn) (maxLen fuel : Nat) :
    ∀ (w : World) (d : List Nat),
      submitsNonBlocking (write_step2_aux c maxLen fuel w d).2.2.1 = true := by
  induction fuel with
  | zero => intro w d; rfl
  | succ k ih =>
      intro w d
      simp only [write_step2_aux]
      split
      · split
        · split <;>
            simp [submitsNonBlocking_cons, submitsNonBlocking_append,
              submitsNonBlocking_nil, submitsNonBlocking_conn_send, ih]
        · rfl
      · rfl

theorem submitsNonBlocking_write_step4 (c : Conn) (w : World) (evs : List Ev)
    (fl : Bool) (h : submitsNonBlocking evs = true) :
    submitsNonBlocking (write_step4 c w evs fl).trace = true := by
  rcases hfl : fl <;> rcases hb : c.buff with _ | b <;>
    simp only [write_step4, hfl, hb] <;>
    simp [submitsNonBlocking_append, h, submitsNonBlocking_nil,
      submitsNonBlocking_flush_buff]

theorem submitsNonBlocking_write_step3 (c : Conn) (maxLen : Nat) (w : World)
    (rest : List Nat) (fl : Bool) :
    submitsNonBlocking (write_step3 c maxLen w rest fl).trace = true := by
  rcases hb : c.buff with _ | b
  · rcases ha : w.alloc.1 <;> by_cases hr : rest = [] <;>
      simp only [write_step3, hb, ha, Bool.false_eq_true, Bool.true_eq_false,
        if_true, if_false, hr, ite_true, ite_false, reduceIte]
    · exact submitsNonBlocking_write_step4 _ _ _ _ (by rfl)
    · rfl
    · exact submitsNonBlocking_write_step4 _ _ _ _ (by rfl)
    · exact submitsNonBlocking_write_step4 _ _ _ _ (by rfl)
  · by_cases hr : rest = [] <;>
      simp only [write_step3, hb, hr, ite_true, ite_false, reduceIte]
    · exact submitsNonBlocking_write_step4 _ _ _ _ (by rfl)
    · exact submitsNonBlocking_write_step4 _ _ _ _ (by rfl)

theorem submitsNonBlocking_gsm_conn_write (c : Conn) (maxLen : Nat)
    (w : World) (d : List Nat) (fl : Bool) :
    submitsNonBlocking (gsm_conn_write c maxLen w d fl).trace = true := by
  rcases hs1 : write_step1 c w d fl with ⟨c1, w1, evs1, d1⟩
  have h1 := submitsNonBlocking_write_step1 c w d fl
  rw [hs1] at h1
  rcases hs2 : write_step2_aux c1 maxLen d1.length w1 d1 with ⟨r2, w2, evs2, d2⟩
  have h2 := submitsNonBlocking_write_step2_aux c1 maxLen d1.length w1 d1
  rw [hs2] at h2
  simp only [gsm_conn_write, write_step2, hs1, hs2]
  split <;>
    simp [submitsNonBlocking_append, h1, h2, submitsNonBlocking_write_step3]

theorem blockingSubmitsUnlocked_conn_send_zero (c : Conn) (w : World)
    (d : List Nat) (fau bl : Bool) :
    blockingSubmitsUnlocked 0 (conn_send c w d fau bl).2.2 = true :=
  blockingSubmitsUnlocked_conn_send c w d fau bl 0 (Or.inl rfl)

theorem Oks.alloc {w : World} (hw : Oks w) : Oks w.alloc.2 :=
  ⟨fun n => hw.1 n, fun n => hw.2 n⟩

theorem Oks.of_fns {w w' : World} (hw : Oks w)
    (h1 : w'.allocOk = w.allocOk) (h2 : w'.sendRes = w.sendRes) : Oks w' :=
  ⟨fun n => by rw [h1]; exact hw.1 n, fun n => by rw [h2]; exact hw.2 n⟩

theorem sentChunks_append (a b : List Ev) :
    sentChunks (a ++ b) = sentChunks a ++ sentChunks b := by
  simp [sentChunks]

/-- Under a fully successful environment, `conn_send` on non-empty data
succeeds and its trace dispatches exactly that data. -/
theorem conn_send_ok {w : World} (hw : Oks w) (c : Conn) (d : List Nat)
    (fau bl : Bool) (hd : d ≠ []) :
    (conn_send c w d fau bl).1 = Gsmr.gsmOK ∧
    sentChunks (conn_send c w d fau bl).2.2 = [d] := by
  have hlen : ¬d.length = 0 := by simpa using hd
  simp [conn_send, World.alloc, World.send, hlen, hw.1, hw.2, sentChunks]

/-- Under a fully successful environment, the bytes `flush_buff`
dispatches followed by the bytes left staged equal the bytes that were
staged before the call. -/
theorem flush_buff_conserves {w : World} (hw : Oks w) (c : Conn) :
    (sentChunks (flush_buff c w).trace).flatten ++
      connStaged (flush_buff c w).conn = connStaged c := by
  rcases hb : c.buff with _ | b
  · simp [flush_buff, hb, sentChunks, connStaged]
  · rcases hs : b.staged with _ | ⟨x, xs⟩
    · simp [flush_buff, hb, hs, sentChunks, connStaged]
    · have hcs := conn_send_ok hw c b.staged true false (by simp [hs])
      simp only [flush_buff, hb]
      rw [if_pos (by simp [hs]), if_pos hcs.1]
      rw [sentChunks_append, sentChunks_append, hcs.2]
      simp [sentChunks, connStaged, hb]

/-- Conservation across step 1 of `gsm_conn_write`, under the module
invariant `buff.ptr ≤ buff.len`: the dispatched bytes, then the staged
bytes, then the unconsumed input equal the previously staged bytes
followed by the input; and whenever a buffer remains after step 1, the
whole input was consumed. -/
theorem write_step1_spec {w : World} (hw : Oks w) (c : Conn) (d : List Nat)
    (fl : Bool) (hinv : ∀ b, c.buff = some b → b.staged.length ≤ b.cap) :
    (sentChunks (write_step1 c w d fl).2.2.1).flatten ++
        (connStaged (write_step1 c w d fl).1 ++ (write_step1 c w d fl).2.2.2) =
      connStaged c ++ d ∧
    (∀ b1, (write_step1 c w d fl).1.buff = some b1 →
      (write_step1 c w d fl).2.2.2 = []) := by
  rcases hb : c.buff with _ | b
  · simp [write_step1, hb, sentChunks, connStaged]
  · have hsb := hinv b hb
    simp only [write_step1, hb]
    split
    · split
      · -- step 1.1, dispatch accepted: the staged prefix was sent whole
        rename_i hcond hs1
        have hne : b.staged ++
            List.take (min (b.cap - b.staged.length) d.length) d ≠ [] := by
          intro hnil
          rw [hnil] at hs1
          simp [conn_send] at hs1
        have hcs := conn_send_ok hw c _ true false hne
        refine ⟨?_, by intro b1 hb1; simp at hb1⟩
        rw [hcs.2]
        simp [connStaged, hb, List.take_append_drop]
      · -- step 1.1, dispatch rejected: under `Oks` only possible for an
        -- empty staged buffer (the `btw > 0` assert fires), nothing lost
        rename_i hcond hs1
        have hst : b.staged ++
            List.take (min (b.cap - b.staged.length) d.length) d = [] := by
          by_contra hne
          exact hs1 (conn_send_ok hw c _ true false hne).1
        have h1 : b.staged = [] ∧
            List.take (min (b.cap - b.staged.length) d.length) d = [] := by
          simpa using hst
        have hdrop :
            List.drop (min (b.cap - b.staged.length) d.length) d = d := by
          rcases List.take_eq_nil_iff.mp h1.2 with h | h
          · rw [h, List.drop_zero]
          · rw [h]
            simp
        refine ⟨?_, by intro b1 hb1; simp at hb1⟩
        rw [hst, hdrop]
        simp [conn_send, connStaged, hb, h1.1, sentChunks]
    · -- no flush: the buffer was not filled, so the input fit entirely
      rename_i hcond
      have hfit : d.length ≤ b.cap - b.staged.length := by
        rcases Nat.le_total (b.cap - b.staged.length) d.length with hle | hle
        · exfalso
          apply hcond
          have : (b.staged ++
              List.take (min (b.cap - b.staged.length) d.length) d).length =
                b.cap := by
            rw [Nat.min_eq_left hle]
            simp [List.length_take]
            omega
          simp [this]
        · exact hle
      have hmin : min (b.cap - b.staged.length) d.length = d.length :=
        Nat.min_eq_right hfit
      refine ⟨?_, fun b1 _ => ?_⟩ <;>
        simp [hmin, connStaged, hb, sentChunks, List.drop_length,
          List.take_length]

theorem sentChunks_cons_allocBuff (ok : Bool) (tr : List Ev) :
    sentChunks (Ev.allocBuff ok :: tr) = sentChunks tr := by
  simp [sentChunks]

theorem write_step1_world (c : Conn) (w : World) (d : List Nat) (fl : Bool) :
    (write_step1 c w d fl).2.1.allocOk = w.allocOk ∧
    (write_step1 c w d fl).2.1.sendRes = w.sendRes := by
  rcases hb : c.buff with _ | b <;> simp only [write_step1, hb]
  · constructor <;> simp
  · split
    · split <;> exact conn_send_world c w _ true false
    · constructor <;> simp

/-- Conservation across the step-2 chunk loop of `gsm_conn_write` under a
fully successful environment: the loop succeeds, the dispatched chunks
followed by the unconsumed input equal the input, and the environment
oracles are unchanged. -/
theorem write_step2_spec (c : Conn) (maxLen : Nat) (fuel : Nat) :
    ∀ (w : World) (d : List Nat), Oks w → d.length ≤ fuel →
      (write_step2_aux c maxLen fuel w d).1 = Gsmr.gsmOK ∧
      (sentChunks (write_step2_aux c maxLen fuel w d).2.2.1).flatten ++
          (write_step2_aux c maxLen fuel w d).2.2.2 = d ∧
      Oks (write_step2_aux c maxLen fuel w d).2.1 := by
  induction fuel with
  | zero =>
      intro w d hw hlen
      have hd : d = [] := List.length_eq_zero.mp (Nat.le_zero.mp hlen)
      subst hd
      exact ⟨rfl, by simp [write_step2_aux, sentChunks], hw⟩
  | succ k ih =>
      intro w d hw hlen
      simp only [write_step2_aux, World.alloc]
      split
      · rename_i hg
        rw [if_pos (hw.1 w.allocs)]
        have hchunk : List.take maxLen d ≠ [] := by
          intro h
          rcases List.take_eq_nil_iff.mp h with h | h
          · omega
          · subst h
            simp at hg
            omega
        have hw1 : Oks { w with allocs := w.allocs + 1 } := ⟨hw.1, hw.2⟩
        have hcs := conn_send_ok hw1 c (List.take maxLen d) true false hchunk
        rw [if_pos hcs.1]
        have hcw := conn_send_world c { w with allocs := w.allocs + 1 }
          (List.take maxLen d) true false
        have hdl : (List.drop maxLen d).length ≤ k := by
          simp only [List.length_drop]
          omega
        have ihres := ih _ (List.drop maxLen d)
          (Oks.of_fns hw1 hcw.1 hcw.2) hdl
        refine ⟨ihres.1, ?_, ihres.2.2⟩
        rw [sentChunks_append, sentChunks_cons_allocBuff, hcs.2]
        simp only [List.singleton_append, List.flatten_cons,
          List.append_assoc]
        rw [ihres.2.1, List.take_append_drop]
      · exact ⟨by simp, by simp [sentChunks], hw⟩

/-- Step 4 always reports success and stores the final buffer's free
capacity through `mem_available`. -/
theorem write_step4_always (c : Conn) (w : World) (evs : List Ev)
    (fl : Bool) :
    (write_step4 c w evs fl).res = Gsmr.gsmOK ∧
    (write_step4 c w evs fl).memAvail =
      some (availOf (write_step4 c w evs fl).conn) := by
  rcases hfl : fl <;> rcases hb : c.buff with _ | b <;>
    simp [write_step4, hfl, hb, availOf]

/-- Conservation across step 4: the flush (when it runs) moves the staged
bytes into the dispatched chunks. -/
theorem write_step4_spec (c : Conn) (w : World) (evs : List Ev) (fl : Bool)
    (hw : Oks w) :
    (sentChunks (write_step4 c w evs fl).trace).flatten ++
        connStaged (write_step4 c w evs fl).conn =
      (sentChunks evs).flatten ++ connStaged c := by
  rcases hfl : fl <;> rcases hb : c.buff with _ | b <;>
    simp only [write_step4, hfl, hb]
  · simp [sentChunks_append]
  · simp [sentChunks_append]
  · simp [sentChunks_append]
  · rw [sentChunks_append, List.flatten_append, List.append_assoc,
      flush_buff_conserves hw c]

/-- Conservation across steps 3 and 4 under a fully successful
environment, given that a remaining buffer implies no remaining input
(established by steps 1 and 2). -/
theorem write_step3_spec (c : Conn) (maxLen : Nat) (w : World)
    (rest : List Nat) (fl : Bool) (hw : Oks w)
    (hsafe : c.buff = none ∨ rest = []) :
    (write_step3 c maxLen w rest fl).res = Gsmr.gsmOK ∧
    (sentChunks (write_step3 c maxLen w rest fl).trace).flatten ++
        connStaged (write_step3 c maxLen w rest fl).conn =
      connStaged c ++ rest := by
  rcases hb : c.buff with _ | b
  · simp only [write_step3, hb, World.alloc]
    rw [if_pos (hw.1 w.allocs)]
    split
    · rename_i hr
      subst hr
      refine ⟨(write_step4_always _ _ _ _).1,
        Eq.trans (write_step4_spec _ _ _ _ ⟨hw.1, hw.2⟩) ?_⟩
      simp [sentChunks, connStaged, hb]
    · refine ⟨(write_step4_always _ _ _ _).1,
        Eq.trans (write_step4_spec _ _ _ _ ⟨hw.1, hw.2⟩) ?_⟩
      simp [sentChunks, connStaged, hb]
  · have hr : rest = [] := by
      rcases hsafe with h | h
      · rw [hb] at h
        cases h
      · exact h
    subst hr
    simp only [write_step3, hb]
    refine ⟨(write_step4_always _ _ _ _).1,
      Eq.trans (write_step4_spec _ _ _ _ hw) ?_⟩
    simp [sentChunks]

theorem noAllocBuff_conn_send (c : Conn) (w : World) (d : List Nat)
    (fau bl : Bool) (ok : Bool) :
    Ev.allocBuff ok ∉ (conn_send c w d fau bl).2.2 := by
  simp only [conn_send]
  split
  · simp
  · split <;> simp

theorem noAllocBuff_flush_buff (c : Conn) (w : World) (ok : Bool) :
    Ev.allocBuff ok ∉ (flush_buff c w).trace := by
  rcases hb : c.buff with _ | b
  · simp [flush_buff, hb]
  · simp only [flush_buff, hb]
    split
    · split <;> simp [noAllocBuff_conn_send]
    · simp

theorem noAllocBuff_write_step1 (c : Conn) (w : World) (d : List Nat)
    (fl : Bool) (ok : Bool) :
    Ev.allocBuff ok ∉ (write_step1 c w d fl).2.2.1 := by
  rcases hb : c.buff with _ | b <;> simp only [write_step1, hb]
  · simp
  · split
    · split <;> simp [noAllocBuff_conn_send]
    · simp

/-- A failed buffer allocation in the step-2 loop always aborts the call
with an error. -/
theorem write_step2_allocFail (c : Conn) (maxLen fuel : Nat) :
    ∀ (w : World) (d : List Nat),
      Ev.allocBuff false ∈ (write_step2_aux c maxLen fuel w d).2.2.1 →
      (write_step2_aux c maxLen fuel w d).1 ≠ Gsmr.gsmOK := by
  induction fuel with
  | zero => intro w d h; simp [write_step2_aux] at h
  | succ k ih =>
      intro w d
      simp only [write_step2_aux]
      split
      · split
        · split
          · intro hm
            simp only [List.cons_append, List.mem_cons,
              List.mem_append] at hm
            rcases hm with h | h | h
            · cases h
            · exact absurd h (noAllocBuff_conn_send _ _ _ _ _ _)
            · exact ih _ _ h
          · intro _
            simp
        · intro _
          simp
      · intro hm
        simp at hm

theorem write_step4_none (c : Conn) (w : World) (evs : List Ev) (fl : Bool)
    (hb : c.buff = none) :
    (write_step4 c w evs fl).conn = c ∧
    (write_step4 c w evs fl).trace = evs := by
  rcases hfl : fl <;> simp [write_step4, hfl, hb]

theorem write_step4_trace (c : Conn) (w : World) (evs : List Ev) (fl : Bool)
    (ok : Bool) (h : Ev.allocBuff ok ∈ (write_step4 c w evs fl).trace) :
    Ev.allocBuff ok ∈ evs := by
  rcases hfl : fl <;> subst hfl <;> rcases hb : c.buff with _ | b <;>
    simp only [write_step4, hb, List.mem_append, List.append_nil] at h
  · exact h
  · exact h
  · exact h
  · rcases h with h | h
    · exact h
    · exact absurd h (noAllocBuff_flush_buff _ _ _)

/-- Steps 3 and 4 report `mem_available` correctly: it equals the final
buffer's free capacity on success, is unwritten on error, and every
buffer-allocation failure surfaces as either an error or a success with
zero reported capacity. -/
theorem write_step3_report (c : Conn) (maxLen : Nat) (w : World)
    (rest : List Nat) (fl : Bool) :
    ((write_step3 c maxLen w rest fl).res = Gsmr.gsmOK →
      (write_step3 c maxLen w rest fl).memAvail =
        some (availOf (write_step3 c maxLen w rest fl).conn)) ∧
    ((write_step3 c maxLen w rest fl).res ≠ Gsmr.gsmOK →
      (write_step3 c maxLen w rest fl).memAvail = none) ∧
    (Ev.allocBuff false ∈ (write_step3 c maxLen w rest fl).trace →
      (write_step3 c maxLen w rest fl).res ≠ Gsmr.gsmOK ∨
        (write_step3 c maxLen w rest fl).memAvail = some 0) := by
  rcases hb : c.buff with _ | b
  · rcases ha : w.alloc.1 <;> by_cases hr : rest = [] <;>
      simp only [write_step3, hb, ha, Bool.false_eq_true, Bool.true_eq_false,
        if_true, if_false, hr, ite_true, ite_false, reduceIte]
    · have h4n := write_step4_none c w.alloc.2 [Ev.allocBuff false] fl hb
      refine ⟨fun _ => (write_step4_always _ _ _ _).2,
        fun hres => absurd (write_step4_always _ _ _ _).1 hres,
        fun _ => Or.inr ?_⟩
      rw [(write_step4_always _ _ _ _).2, h4n.1]
      simp [availOf, hb]
    · exact ⟨fun h => absurd h (by simp), by simp,
        fun _ => Or.inl (by simp)⟩
    · refine ⟨fun _ => (write_step4_always _ _ _ _).2,
        fun hres => absurd (write_step4_always _ _ _ _).1 hres,
        fun hm => ?_⟩
      have h := write_step4_trace _ _ _ _ false hm
      simp at h
    · refine ⟨fun _ => (write_step4_always _ _ _ _).2,
        fun hres => absurd (write_step4_always _ _ _ _).1 hres,
        fun hm => ?_⟩
      have h := write_step4_trace _ _ _ _ false hm
      simp at h
  · by_cases hr : rest = [] <;>
      simp only [write_step3, hb, hr, ite_true, ite_false, reduceIte]
    · refine ⟨fun _ => (write_step4_always _ _ _ _).2,
        fun hres => absurd (write_step4_always _ _ _ _).1 hres,
        fun hm => ?_⟩
      have h := write_step4_trace _ _ _ _ false hm
      simp at h
    · refine ⟨fun _ => (write_step4_always _ _ _ _).2,
        fun hres => absurd (write_step4_always _ _ _ _).1 hres,
        fun hm => ?_⟩
      have h := write_step4_trace _ _ _ _ false hm
      simp at h

/-- C10: for every connection pointer that passes the validity check,
`gsm_conn_is_closed` returns `1` exactly when `gsm_conn_is_active` returns
`0`; a connection in closing state but still flagged active reports as
active and not closed; and both functions return `0` for an invalid
pointer. -/
theorem C10_active_closed_complement (valid : Bool) (c : Conn) :
    (valid = true →
      (gsm_conn_is_closed valid c = 1 ↔ gsm_conn_is_active valid c = 0)) ∧
    (valid = true → c.in_closing = true → c.active = true →
      gsm_conn_is_active valid c = 1 ∧ gsm_conn_is_closed valid c = 0) ∧
    (valid = false →
      gsm_conn_is_active valid c = 0 ∧ gsm_conn_is_closed valid c = 0) := by
  cases valid <;> cases h : c.active <;>
    simp [gsm_conn_is_active, gsm_conn_is_closed, h]

/-- Witness for C10 at a concrete closing-but-active connection. -/
theorem C10_active_closed_complement_witness :
    gsm_conn_is_active true { connNoBuff with in_closing := true } = 1 ∧
    gsm_conn_is_closed true { connNoBuff with in_closing := true } = 0 :=
  (C10_active_closed_complement true { connNoBuff with in_closing := true }).2.1
    rfl rfl rfl

/-- C8: a firing of the poll timeout callback emits a poll event and
re-arms the timer exactly when the timer is still armed and the connection
is active at that moment; an inactive connection produces no events, and
once the connection is inactive at some firing, every later firing
produces no events at all (the callback chain self-terminates). -/
theorem C8_poll_chain_self_terminates (c : Conn) (activity : Nat → Bool)
    (n : Nat) :
    (timerFire c activity n = [Ev.pollEvt, Ev.timeoutAdd] ↔
      timerArmed activity n = true ∧ activity n = true) ∧
    (activity n = false → timerFire c activity n = []) ∧
    (∀ m, m < n → activity m = false → timerFire c activity n = []) := by
  refine ⟨?_, ?_, ?_⟩
  · cases ha : timerArmed activity n <;> cases hn : activity n <;>
      simp [timerFire, conn_timeout_cb, ha, hn]
  · intro hn
    cases ha : timerArmed activity n <;>
      simp [timerFire, conn_timeout_cb, ha, hn]
  · intro m hmn hm
    simp [timerFire, timerArmed_eq_false activity hmn hm]

/-- Witness for C8: with a connection active at firings `0` and `1` only,
firing `3` does nothing. -/
theorem C8_poll_chain_self_terminates_witness :
    timerFire connNoBuff (fun n => decide (n < 2)) 3 = [] :=
  (C8_poll_chain_self_terminates connNoBuff (fun n => decide (n < 2)) 3).2.2
    2 (by decide) (by decide)

/-- C7 counterexample: the claim says `flush_buff` returns an error status
whenever there is no pending buffered content, *including when no buffer
exists at all*; but with no buffer the initial `res = gsmOK` is returned
unchanged. -/
theorem C7_flush_no_buffer_cex :
    connNoBuff.buff = none ∧
    (flush_buff connNoBuff allOkWorld).res = Gsmr.gsmOK := by
  decide

/-- C7 amended: `flush_buff` returns `gsmERR` when a buffer exists with no
pending content, returns the dispatch status when content is submitted,
returns `gsmOK` (performing no submission) when no buffer exists at all,
and in every case leaves the connection's buffer reference cleared. -/
theorem C7_flush_behaviour (c : Conn) (w : World) :
    (flush_buff c w).conn.buff = none ∧
    (c.buff = none → (flush_buff c w).res = Gsmr.gsmOK ∧
      hasSubmit (flush_buff c w).trace = false) ∧
    (∀ b, c.buff = some b → b.staged = [] →
      (flush_buff c w).res = Gsmr.gsmERR) ∧
    (∀ b, c.buff = some b → b.staged ≠ [] →
      (flush_buff c w).res = (conn_send c w b.staged true false).1) := by
  refine ⟨?_, ?_, ?_, ?_⟩
  · rcases hb : c.buff with _ | b
    · simp [flush_buff, hb]
    · simp only [flush_buff, hb]
      split
      · split <;> rfl
      · rfl
  · intro hnone
    simp [flush_buff, hnone, hasSubmit]
  · intro b hb hs
    simp [flush_buff, hb, hs]
  · intro b hb hs
    simp only [flush_buff, hb]
    rw [if_pos (fun h => hs (List.length_eq_zero.mp h))]
    split <;> rfl

/-- Witness for C7 at concrete connections with and without a buffer. -/
theorem C7_flush_behaviour_witness :
    (flush_buff connNoBuff allOkWorld).res = Gsmr.gsmOK ∧
    (flush_buff connOneStaged allOkWorld).res =
      (conn_send connOneStaged allOkWorld [7] true false).1 :=
  ⟨((C7_flush_behaviour connNoBuff allOkWorld).2.1 rfl).1,
   (C7_flush_behaviour connOneStaged allOkWorld).2.2.2
     { cap := 2, staged := [7] } rfl (by decide)⟩

/-- C4: `gsm_conn_write` with zero length, the flush flag set, and no
prior pending buffer allocates one new buffer, copies zero bytes, performs
a flush attempt that submits nothing (a no-data no-op, `gsmERR` internally
absorbed), frees that single buffer exactly once, and returns `gsmOK`. -/
theorem C4_zero_length_flush_write (c : Conn) (maxLen : Nat) (w : World)
    (hb : c.buff = none) (ha : ∀ n, w.allocOk n = true) :
    (gsm_conn_write c maxLen w [] true).res = Gsmr.gsmOK ∧
    (gsm_conn_write c maxLen w [] true).trace =
      [Ev.allocBuff true, Ev.protect, Ev.freeBuff, Ev.unprotect] ∧
    (gsm_conn_write c maxLen w [] true).conn.buff = none ∧
    (gsm_conn_write c maxLen w [] true).memAvail = some 0 := by
  simp [gsm_conn_write, write_step1, write_step2, write_step2_aux_nil,
    write_step3, write_step4, flush_buff, World.alloc, hb, ha]

/-- Witness for C4 at a concrete connection and environment. -/
theorem C4_zero_length_flush_write_witness :
    (gsm_conn_write connNoBuff 4 allOkWorld [] true).res = Gsmr.gsmOK ∧
    (gsm_conn_write connNoBuff 4 allOkWorld [] true).trace =
      [Ev.allocBuff true, Ev.protect, Ev.freeBuff, Ev.unprotect] :=
  ⟨(C4_zero_length_flush_write connNoBuff 4 allOkWorld rfl fun _ => rfl).1,
   (C4_zero_length_flush_write connNoBuff 4 allOkWorld rfl fun _ => rfl).2.1⟩

/-- C5: `gsm_conn_write` of exactly `GSM_CFG_CONN_MAX_DATA_LEN` bytes with
no flush and no prior buffer dispatches exactly one full-size chunk as a
non-blocking free-after-use send and leaves a freshly allocated write
buffer with zero bytes used. -/
theorem C5_exact_chunk_write (c : Conn) (maxLen : Nat) (w : World)
    (d : List Nat) (hb : c.buff = none) (hpos : 0 < maxLen)
    (hlen : d.length = maxLen) (ha : ∀ n, w.allocOk n = true)
    (hs : ∀ n, w.sendRes n = Gsmr.gsmOK) :
    (gsm_conn_write c maxLen w d false).res = Gsmr.gsmOK ∧
    (gsm_conn_write c maxLen w d false).trace =
      [Ev.allocBuff true, Ev.allocMsg true, Ev.protect, Ev.readValId c.val_id,
       Ev.unprotect,
       Ev.submit { cmd_def := CmdDef.CIPSEND, val_id := some c.val_id,
                   data := d, fau := true, blocking := false } Gsmr.gsmOK,
       Ev.allocBuff true] ∧
    (gsm_conn_write c maxLen w d false).conn.buff =
      some { cap := maxLen, staged := [] } ∧
    (gsm_conn_write c maxLen w d false).memAvail = some maxLen := by
  obtain ⟨k, rfl⟩ : ∃ k, maxLen = k + 1 := ⟨maxLen - 1, by omega⟩
  have ht : d.take (k + 1) = d := by
    rw [← hlen]
    simp
  have hdr : d.drop (k + 1) = [] := by
    rw [← hlen]
    simp
  have hd0 : ¬d.length = 0 := by omega
  simp [gsm_conn_write, write_step1, write_step2, write_step2_aux, hlen, ht,
    hdr, hd0, conn_send, write_step2_aux_nil, write_step3, write_step4,
    flush_buff, World.alloc, World.send, hb, ha, hs]

/-- Witness for C5 at a concrete connection, chunk size `3`. -/
theorem C5_exact_chunk_write_witness :
    (gsm_conn_write connNoBuff 3 allOkWorld [5, 6, 7] false).res =
      Gsmr.gsmOK ∧
    (gsm_conn_write connNoBuff 3 allOkWorld [5, 6, 7] false).conn.buff =
      some { cap := 3, staged := [] } :=
  ⟨(C5_exact_chunk_write connNoBuff 3 allOkWorld [5, 6, 7] rfl (by decide)
      rfl (fun _ => rfl) fun _ => rfl).1,
   (C5_exact_chunk_write connNoBuff 3 allOkWorld [5, 6, 7] rfl (by decide)
      rfl (fun _ => rfl) fun _ => rfl).2.2.1⟩

/-- C2: closing an active, not-yet-closing connection twice in a row in
non-blocking mode (with allocations and queue submissions succeeding)
returns `gsmOK` the first time and `gsmERR` the second time, with exactly
one close command ever submitted; and any close of a connection that is
in closing state or not active is rejected with `gsmERR` producing only
the lock/unlock pair — no allocation and no submission. -/
theorem C2_double_close (c : Conn) (w : World)
    (hact : c.active = true) (hcl : c.in_closing = false)
    (ha : ∀ n, w.allocOk n = true) (hs : ∀ n, w.sendRes n = Gsmr.gsmOK) :
    (gsm_conn_close c w false).res = Gsmr.gsmOK ∧
    (gsm_conn_close (gsm_conn_close c w false).conn
        (gsm_conn_close c w false).world false).res = Gsmr.gsmERR ∧
    closeSubmitCount ((gsm_conn_close c w false).trace ++
      (gsm_conn_close (gsm_conn_close c w false).conn
        (gsm_conn_close c w false).world false).trace) = 1 ∧
    (∀ c2 w2 b2, (c2.in_closing = true ∨ c2.active = false) →
      (gsm_conn_close c2 w2 b2).res = Gsmr.gsmERR ∧
      (gsm_conn_close c2 w2 b2).trace = [Ev.protect, Ev.unprotect]) := by
  have hrej : ∀ c2 w2 b2, (c2.in_closing = true ∨ c2.active = false) →
      (gsm_conn_close c2 w2 b2).res = Gsmr.gsmERR ∧
      (gsm_conn_close c2 w2 b2).trace = [Ev.protect, Ev.unprotect] := by
    intro c2 w2 b2 h
    rcases h with h | h <;> simp [gsm_conn_close, h]
  have hsend : (flush_buff c { w with allocs := w.allocs + 1 }).world.sendRes
      (flush_buff c { w with allocs := w.allocs + 1 }).world.sends =
        Gsmr.gsmOK := by
    rw [(flush_buff_world c { w with allocs := w.allocs + 1 }).2]
    exact hs _
  have key : (gsm_conn_close c w false).res = Gsmr.gsmOK ∧
      (gsm_conn_close c w false).conn.in_closing = true ∧
      closeSubmitCount (gsm_conn_close c w false).trace = 1 := by
    simp only [gsm_conn_close, hact, hcl, World.alloc, World.send, ha, hsend]
    simp [closeSubmitCount, List.countP_append]
    have hflush := closeSubmitCount_flush_buff c { w with allocs := w.allocs + 1 }
    simpa [closeSubmitCount] using hflush
  refine ⟨key.1, (hrej _ _ _ (Or.inl key.2.1)).1, ?_, hrej⟩
  rw [closeSubmitCount, List.countP_append, ← closeSubmitCount,
    ← closeSubmitCount, key.2.2, (hrej _ _ _ (Or.inl key.2.1)).2]
  simp [closeSubmitCount]

/-- Witness for C2 at a concrete connection and environment. -/
theorem C2_double_close_witness :
    (gsm_conn_close connOneStaged allOkWorld false).res = Gsmr.gsmOK ∧
    (gsm_conn_close (gsm_conn_close connOneStaged allOkWorld false).conn
        (gsm_conn_close connOneStaged allOkWorld false).world false).res =
      Gsmr.gsmERR :=
  ⟨(C2_double_close connOneStaged allOkWorld rfl rfl (fun _ => rfl)
      fun _ => rfl).1,
   (C2_double_close connOneStaged allOkWorld rfl rfl (fun _ => rfl)
      fun _ => rfl).2.1⟩

/-- C3: every `CIPSEND` envelope (built by `conn_send` on behalf of
`gsm_conn_send`, `gsm_conn_sendto`, `gsm_conn_write`, or a buffer flush)
and every `CIPCLOSE` envelope (built by `gsm_conn_close`) carries a copy
of the connection's validation id that was read beforehand, and every
read of the validation id happens with the Core Lock held. -/
theorem C3_commands_carry_validation_id (c : Conn) (w : World)
    (maxLen : Nat) (d : List Nat) (fl bl : Bool) :
    (sendsCarryValId c.val_id false
        (gsm_conn_write c maxLen w d fl).trace = true ∧
      valReadsLocked 0 (gsm_conn_write c maxLen w d fl).trace = true) ∧
    (sendsCarryValId c.val_id false (gsm_conn_send c w d bl).trace = true ∧
      valReadsLocked 0 (gsm_conn_send c w d bl).trace = true) ∧
    (sendsCarryValId c.val_id false (gsm_conn_sendto c w d bl).trace = true ∧
      valReadsLocked 0 (gsm_conn_sendto c w d bl).trace = true) ∧
    (sendsCarryValId c.val_id false (gsm_conn_close c w bl).trace = true ∧
      valReadsLocked 0 (gsm_conn_close c w bl).trace = true) ∧
    (sendsCarryValId c.val_id false (flush_buff c w).trace = true ∧
      valReadsLocked 0 (flush_buff c w).trace = true) :=
  ⟨⟨(GoodTr_gsm_conn_write c maxLen w d fl).2.2 false,
    (GoodTr_gsm_conn_write c maxLen w d fl).2.1 0⟩,
   ⟨(GoodTr_gsm_conn_send c w d bl).2.2 false,
    (GoodTr_gsm_conn_send c w d bl).2.1 0⟩,
   ⟨(GoodTr_gsm_conn_sendto c w d bl).2.2 false,
    (GoodTr_gsm_conn_sendto c w d bl).2.1 0⟩,
   ⟨(GoodTr_gsm_conn_close c w bl).2.2 false,
    (GoodTr_gsm_conn_close c w bl).2.1 0⟩,
   ⟨(GoodTr_flush_buff c w).2.2 false, (GoodTr_flush_buff c w).2.1 0⟩⟩

/-- C9 counterexample: the claim says every Core-Lock critical section
completes before any producer-queue submission; but `gsm_conn_send` on a
connection with one staged byte flushes under the lock held by
`flush_buff`, so the trace has a submission at lock depth above zero. -/
theorem C9_submit_under_lock_cex :
    submitsAtDepthZero 0
      (gsm_conn_send connOneStaged allOkWorld [9] false).trace = false := by
  decide

/-- C9 amended: the Core Lock is never held across a *blocking*
producer-queue submission: in the traces of `gsm_conn_write`,
`gsm_conn_send`, `gsm_conn_sendto` and `gsm_conn_close`, every submission
made while the lock is held is non-blocking (it is the staged-buffer
dispatch performed inside `flush_buff`'s critical section), and every
submission made by `flush_buff` itself is non-blocking. -/
theorem C9_lock_never_held_across_blocking_submit (c : Conn) (w : World)
    (maxLen : Nat) (d : List Nat) (fl bl : Bool) :
    blockingSubmitsUnlocked 0 (gsm_conn_write c maxLen w d fl).trace = true ∧
    blockingSubmitsUnlocked 0 (gsm_conn_send c w d bl).trace = true ∧
    blockingSubmitsUnlocked 0 (gsm_conn_sendto c w d bl).trace = true ∧
    blockingSubmitsUnlocked 0 (gsm_conn_close c w bl).trace = true ∧
    submitsNonBlocking (flush_buff c w).trace = true := by
  refine ⟨blockingSubmitsUnlocked_of_nonBlocking
    (submitsNonBlocking_gsm_conn_write c maxLen w d fl) 0, ?_, ?_, ?_,
    submitsNonBlocking_flush_buff c w⟩
  · simp only [gsm_conn_send]
    split
    · rfl
    · rcases hb : c.buff with _ | b <;> simp only [hb] <;> split <;>
        simp [blockingSubmitsUnlocked_append, depthAfter_append,
          blockingSubmitsUnlocked, depthAfter, depthAfter_flush_buff,
          blockingSubmitsUnlocked_of_nonBlocking
            (submitsNonBlocking_flush_buff _ _),
          blockingSubmitsUnlocked_conn_send_zero]
  · simp only [gsm_conn_sendto]
    simp [blockingSubmitsUnlocked_append, depthAfter_append,
      depthAfter_flush_buff,
      blockingSubmitsUnlocked_of_nonBlocking
        (submitsNonBlocking_flush_buff _ _),
      blockingSubmitsUnlocked_conn_send_zero]
  · simp only [gsm_conn_close]
    split
    · rfl
    · split
      · split <;>
          simp [blockingSubmitsUnlocked_append, depthAfter_append,
            blockingSubmitsUnlocked, depthAfter, depthAfter_flush_buff,
            blockingSubmitsUnlocked_of_nonBlocking
              (submitsNonBlocking_flush_buff _ _)]
      · rfl

/-- C1 counterexample: the claim counts the *whole* step-1.1 staged-buffer
flush (which contains bytes staged by *earlier* calls) against the current
call's input length `btw`.  A call with `btw = 0` and the flush flag set
on a connection holding one previously staged byte returns `gsmOK` having
dispatched that byte, so dispatched-plus-residual is `[7] ≠ []` and the
byte total is `1 ≠ btw = 0`. -/
theorem C1_per_call_partition_cex :
    (gsm_conn_write connOneStaged 2 allOkWorld [] true).res = Gsmr.gsmOK ∧
    (sentChunks
        (gsm_conn_write connOneStaged 2 allOkWorld [] true).trace).flatten ++
      connStaged (gsm_conn_write connOneStaged 2 allOkWorld [] true).conn ≠
        ([] : List Nat) := by
  decide

/-- C1 amended: over a single `gsm_conn_write` call in an environment
where every allocation and producer-queue submission succeeds (and with
the module invariant `buff.ptr ≤ buff.len`), the call returns `gsmOK` and
the successfully dispatched chunks, in order, followed by the bytes left
staged in the connection buffer equal the bytes staged at entry followed
by the input: the dispatched chunks and the residual partition the prior
staged bytes plus the input in original order with no overlap or gap (for
a call entered with an empty buffer this is exactly the input, total
`btw` bytes). -/
theorem C1_write_conserves_bytes (c : Conn) (maxLen : Nat) (w : World)
    (d : List Nat) (fl : Bool)
    (ha : ∀ n, w.allocOk n = true) (hs : ∀ n, w.sendRes n = Gsmr.gsmOK)
    (hinv : ∀ b, c.buff = some b → b.staged.length ≤ b.cap) :
    (gsm_conn_write c maxLen w d fl).res = Gsmr.gsmOK ∧
    (sentChunks (gsm_conn_write c maxLen w d fl).trace).flatten ++
        connStaged (gsm_conn_write c maxLen w d fl).conn =
      connStaged c ++ d := by
  have hw : Oks w := ⟨ha, hs⟩
  rcases hs1 : write_step1 c w d fl with ⟨c1, w1, evs1, d1⟩
  have h1 := write_step1_spec hw c d fl hinv
  rw [hs1] at h1
  have hw1 : Oks w1 := by
    have hp := write_step1_world c w d fl
    rw [hs1] at hp
    exact Oks.of_fns hw hp.1 hp.2
  rcases hs2 : write_step2_aux c1 maxLen d1.length w1 d1 with ⟨r2, w2, evs2, d2⟩
  have h2 := write_step2_spec c1 maxLen d1.length w1 d1 hw1 le_rfl
  rw [hs2] at h2
  have hsafe : c1.buff = none ∨ d2 = [] := by
    rcases hc1 : c1.buff with _ | b1
    · exact Or.inl rfl
    · right
      have hd1 : d1 = [] := h1.2 b1 hc1
      have h := h2.2.1
      rw [hd1] at h
      exact (List.append_eq_nil.mp h).2
  have h3 := write_step3_spec c1 maxLen w2 d2 fl h2.2.2 hsafe
  simp only [gsm_conn_write, write_step2, hs1, hs2]
  rw [if_pos h2.1]
  refine ⟨h3.1, ?_⟩
  rw [sentChunks_append, sentChunks_append]
  simp only [List.flatten_append, List.append_assoc]
  rw [h3.2]
  rcases hc1 : c1.buff with _ | b1
  · have hcs1 : connStaged c1 = [] := by simp [connStaged, hc1]
    rw [hcs1, List.nil_append, h2.2.1]
    have h := h1.1
    rw [hcs1, List.nil_append] at h
    exact h
  · have hd1 : d1 = [] := h1.2 b1 hc1
    have hd2 : (sentChunks evs2).flatten = [] ∧ d2 = [] := by
      have h := h2.2.1
      rw [hd1] at h
      exact List.append_eq_nil.mp h
    rw [hd2.1, hd2.2]
    simp only [List.nil_append, List.append_nil]
    have h := h1.1
    rw [hd1, List.append_nil] at h
    exact h

/-- Witness for C1 at a concrete connection with one staged byte, one
input byte, chunk size `2`. -/
theorem C1_write_conserves_bytes_witness :
    (sentChunks
        (gsm_conn_write connOneStaged 2 allOkWorld [9] false).trace).flatten ++
      connStaged (gsm_conn_write connOneStaged 2 allOkWorld [9] false).conn =
        connStaged connOneStaged ++ [9] :=
  (C1_write_conserves_bytes connOneStaged 2 allOkWorld [9] false
    (fun _ => rfl) (fun _ => rfl)
    (by
      intro b hb
      injection (show some { cap := 2, staged := [7] } = some b from hb)
        with h
      rw [← h]
      decide)).2

/-- C6: on every `gsmOK` return of `gsm_conn_write`, the value stored
through `mem_available` equals the buffer's capacity minus its used
length when a buffer exists and `0` when none exists; on error returns
nothing is stored; and every write-buffer allocation failure is visible
to the caller either as an error return or as success with reported
available capacity `0`. -/
theorem C6_mem_available_report (c : Conn) (maxLen : Nat) (w : World)
    (d : List Nat) (fl : Bool) :
    ((gsm_conn_write c maxLen w d fl).res = Gsmr.gsmOK →
      (gsm_conn_write c maxLen w d fl).memAvail =
        some (availOf (gsm_conn_write c maxLen w d fl).conn)) ∧
    ((gsm_conn_write c maxLen w d fl).res ≠ Gsmr.gsmOK →
      (gsm_conn_write c maxLen w d fl).memAvail = none) ∧
    (Ev.allocBuff false ∈ (gsm_conn_write c maxLen w d fl).trace →
      (gsm_conn_write c maxLen w d fl).res ≠ Gsmr.gsmOK ∨
        (gsm_conn_write c maxLen w d fl).memAvail = some 0) := by
  rcases hs1 : write_step1 c w d fl with ⟨c1, w1, evs1, d1⟩
  have hno1 : Ev.allocBuff false ∉ evs1 := by
    have h := noAllocBuff_write_step1 c w d fl false
    rw [hs1] at h
    exact h
  rcases hs2 : write_step2_aux c1 maxLen d1.length w1 d1 with ⟨r2, w2, evs2, d2⟩
  have h2fail : Ev.allocBuff false ∈ evs2 → r2 ≠ Gsmr.gsmOK := by
    have h := write_step2_allocFail c1 maxLen d1.length w1 d1
    rw [hs2] at h
    exact h
  have h3 := write_step3_report c1 maxLen w2 d2 fl
  simp only [gsm_conn_write, write_step2, hs1, hs2]
  split
  · rename_i hr2
    refine ⟨fun h => h3.1 h, fun h => h3.2.1 h, fun hm => ?_⟩
    simp only [List.mem_append] at hm
    rcases hm with (hm | hm) | hm
    · exact absurd hm hno1
    · exact absurd hr2 (h2fail hm)
    · exact h3.2.2 hm
  · rename_i hr2
    exact ⟨fun h => absurd h hr2, fun _ => rfl, fun _ => Or.inl hr2⟩

/-- Witness for C6: a write whose remaining-buffer allocation fails still
returns success and reports zero available capacity; a fully successful
write reports the buffer's free capacity. -/
theorem C6_mem_available_report_witness :
    ((gsm_conn_write connNoBuff 2 noMemWorld [] false).res ≠ Gsmr.gsmOK ∨
      (gsm_conn_write connNoBuff 2 noMemWorld [] false).memAvail =
        some 0) ∧
    (gsm_conn_write connNoBuff 2 allOkWorld [1] false).memAvail =
      some (availOf (gsm_conn_write connNoBuff 2 allOkWorld [1] false).conn) :=
  ⟨(C6_mem_available_report connNoBuff 2 noMemWorld [] false).2.2 (by decide),
   (C6_mem_available_report connNoBuff 2 allOkWorld [1] false).1 (by decide)⟩
